import Mathlib

/-!
Shallow embedding of the `imview` filesystem service core
(`src/filesystem.rs`): path resolution, watch-event classification, the
event funnel, the worker-pool jobs, and the thumbnail size computation.

Paths are modelled as lists of components (`Path.parent` drops the last
component, mirroring `std::path::Path::parent` on canonical absolute
paths).  The external collaborators (canonicalization, directory listing,
image-format recognition, image decoding) are collected in an `FSModel`
record of abstract functions, as the spec treats them as external
capabilities.  Images are modelled by their dimensions, the only datum
the thumbnail computation inspects.  The `f32` arithmetic of
`to_thumbnail` is modelled over `ℚ`; at every concrete input used below
the `f32` computation is exact, so the models agree there.
-/

/-- A canonical path, as its list of components. -/
abbrev FPath := List String

/-- `std::path::Path::parent`: drop the last component; `none` at the root. -/
def FPath.parent : FPath → Option FPath
  | [] => none
  | ps => some ps.dropLast

/-- An image, abstracted to its `(width, height)` dimensions. -/
abbrev Img := ℕ × ℕ

/-- Raw debounced watch notification (`notify::DebouncedEvent`). -/
inductive DebouncedEvent where
  | NoticeWrite (p : FPath)
  | NoticeRemove (p : FPath)
  | Create (p : FPath)
  | Write (p : FPath)
  | Chmod (p : FPath)
  | Remove (p : FPath)
  | Rename (old new : FPath)
  | Rescan
  | Error (p : Option FPath)
deriving DecidableEq

/-- `FileEvent` from `src/filesystem.rs`: the normalized file event. -/
inductive FileEvent where
  | Added (p : FPath)
  | Removed (p : FPath)
  | Modified (p : FPath)
  | Renamed (old new : FPath)
deriving DecidableEq

instance : DecidableEq (Except String Img) := fun a b =>
  match a, b with
  | Except.ok x, Except.ok y =>
      if h : x = y then Decidable.isTrue (congrArg Except.ok h)
      else Decidable.isFalse (fun hc => h (Except.ok.inj hc))
  | Except.error x, Except.error y =>
      if h : x = y then Decidable.isTrue (congrArg Except.error h)
      else Decidable.isFalse (fun hc => h (Except.error.inj hc))
  | Except.ok _, Except.error _ => Decidable.isFalse (fun hc => Except.noConfusion hc)
  | Except.error _, Except.ok _ => Decidable.isFalse (fun hc => Except.noConfusion hc)

/-- `OperationEvent`: a decode-job completion, carrying the path and the
decode result (`Except` models `std::io::Result`). -/
inductive OperationEvent where
  | ThumbnailLoaded (p : FPath) (r : Except String Img)
  | ImageLoaded (p : FPath) (r : Except String Img)
deriving DecidableEq

/-- `InternalFSEvent`: items on the funnel's two input channels. -/
inductive InternalFSEvent where
  | Notify (e : DebouncedEvent)
  | Op (e : OperationEvent)
deriving DecidableEq

/-- `FileSystemEvent`: the single output-channel item type. -/
inductive FileSystemEvent where
  | FileEvent (e : FileEvent)
  | OperationEvent (e : OperationEvent)
deriving DecidableEq

/-- The external capabilities consumed by the service: canonicalization,
file-kind queries, directory listing, image recognition, decoding, and
whether native watch setup succeeds.  `none` models an I/O error. -/
structure FSModel where
  canonicalize : FPath → Option FPath
  isFile : FPath → Bool
  isDir : FPath → Bool
  readDir : FPath → Option (List FPath)
  isImage : FPath → Bool
  decode : FPath → Except String Img
  watchSetupOk : Bool

/-- Classification performed by `FileSystem::process_notify_event`
(`src/filesystem.rs` lines 244-274): the `match` over `DebouncedEvent`. -/
def classify (isImg : FPath → Bool) : DebouncedEvent → Option FileEvent
  | DebouncedEvent.Create p => if isImg p then some (FileEvent.Added p) else none
  | DebouncedEvent.Write p => if isImg p then some (FileEvent.Modified p) else none
  | DebouncedEvent.Remove p => some (FileEvent.Removed p)
  | DebouncedEvent.Rename o n => some (FileEvent.Renamed o n)
  | _ => none

/-- One funnel-loop body: a `Notify` item is classified (dropped when the
classification yields `none`), an `Op` item passes through unclassified. -/
def processInternal (isImg : FPath → Bool) : InternalFSEvent → Option FileSystemEvent
  | InternalFSEvent.Notify e => (classify isImg e).map FileSystemEvent.FileEvent
  | InternalFSEvent.Op e => some (FileSystemEvent.OperationEvent e)

/-- Result of `try_recv` on a ready funnel input: spuriously empty,
disconnected (all senders gone), or an item. -/
inductive RecvRes where
  | empty
  | disconnected
  | item (e : InternalFSEvent)
deriving DecidableEq

/-- Observable behaviour of a funnel run: the events placed on the output
channel, the number of `notifier()` invocations, and the error-level log
messages emitted. -/
structure FunnelOut where
  outputs : List FileSystemEvent
  hooks : ℕ
  logs : List String
deriving DecidableEq

/-- Error-log text of the funnel thread (`src/filesystem.rs` line 157). -/
def errInternalRecv : String := "Internal receiver thread finished with error"

/-- The funnel thread's loop (`src/filesystem.rs` lines 141-177), run over
a finite sequence of `try_recv` results.  `sd` is the `ShutdownFlag` value
observed, `alive` whether the output channel's consumer still exists.  A
spuriously empty receive continues; a disconnected receive logs (only when
the flag is unset) and breaks; an item is processed, then `notifier()` is
invoked unconditionally, then the loop breaks when the forward failed
(which happens exactly when a classified event was sent while the consumer
was gone). -/
def funnelRun (isImg : FPath → Bool) (sd alive : Bool) : List RecvRes → FunnelOut
  | [] => ⟨[], 0, []⟩
  | RecvRes.empty :: rest => funnelRun isImg sd alive rest
  | RecvRes.disconnected :: _ => ⟨[], 0, if sd then [] else [errInternalRecv]⟩
  | RecvRes.item e :: rest =>
    match processInternal isImg e, alive with
    | some ev, true =>
      let r := funnelRun isImg sd alive rest
      ⟨ev :: r.outputs, r.hooks + 1, r.logs⟩
    | some _, false => ⟨[], 1, []⟩
    | none, _ =>
      let r := funnelRun isImg sd alive rest
      ⟨r.outputs, r.hooks + 1, r.logs⟩

/-- Number of items the funnel drains from a receive sequence before a
disconnect stops it (every drained item triggers one `notifier()` call
when the consumer is alive). -/
def itemsConsumed : List RecvRes → ℕ
  | [] => 0
  | RecvRes.empty :: rest => itemsConsumed rest
  | RecvRes.disconnected :: _ => 0
  | RecvRes.item _ :: rest => itemsConsumed rest + 1

/-- Error-log text of the watch bridge on a failed receive
(`src/filesystem.rs` line 111). -/
def errBridgeRecv : String := "Notify watcher thread ended by reason"

/-- Error-log text of the watch bridge on a failed forward
(`src/filesystem.rs` line 119). -/
def errBridgeSend : String := "Failed to send event to filesystem thread"

/-- The watch-bridge thread (`src/filesystem.rs` lines 104-129), run over
a finite sequence of native-channel receive results (`none` = the native
channel closed).  `sd` is the `ShutdownFlag`, `alive` whether the funnel
side of the internal channel still exists.  Both exit paths log an error
only when the flag is unset.  Returns the forwarded items and the logs. -/
def watchBridge (sd alive : Bool) : List (Option DebouncedEvent) → List InternalFSEvent × List String
  | [] => ([], [])
  | none :: _ => ([], if sd then [] else [errBridgeRecv])
  | some e :: rest =>
    if alive then
      let r := watchBridge sd alive rest
      (InternalFSEvent.Notify e :: r.1, r.2)
    else ([], if sd then [] else [errBridgeSend])

/-- Error-log text of a full-image worker job on a failed send
(`src/filesystem.rs` line 206). -/
def errImageSend : String := "Cannot send image to main thread"

/-- Error-log text of a thumbnail worker job on a failed send
(`src/filesystem.rs` line 239). -/
def errThumbnailSend : String := "Cannot send thumbnail to main thread"

/-- `FileSystem::to_thumbnail` (`src/filesystem.rs` lines 216-226),
modelled on dimensions over `ℚ` (the source uses `f32`; the concrete
instances proved below are exactly representable in `f32`):
`s = min(size/w, size/h)`, both dimensions scaled by `s` and floored. -/
def to_thumbnail (img : Img) (size : ℕ) : Img :=
  let w := img.1
  let h := img.2
  let ws : ℚ := (size : ℚ) / (w : ℚ)
  let hs : ℚ := (size : ℚ) / (h : ℚ)
  let s : ℚ := min ws hs
  ((⌊(w : ℚ) * s⌋).toNat, (⌊(h : ℚ) * s⌋).toNat)

/-- The body of the closure spawned by `FileSystem::read_file`
(`src/filesystem.rs` lines 195-209): open and decode the path (any
failure is wrapped inside the result), then send one `ImageLoaded` item;
a failed send (`alive = false`) logs an error unconditionally — the
closure does not capture the `ShutdownFlag`.  Returns the item actually
delivered to the funnel channel (if any) and the logs. -/
def read_file_job (fs : FSModel) (alive : Bool) (p : FPath) :
    Option InternalFSEvent × List String :=
  let res := fs.decode p
  if alive then (some (InternalFSEvent.Op (OperationEvent.ImageLoaded p res)), [])
  else (none, [errImageSend])

/-- The body of the closure spawned by `FileSystem::read_thumbnail`
(`src/filesystem.rs` lines 228-242): decode, on success apply
`to_thumbnail`, send one `ThumbnailLoaded` item; a failed send logs an
error unconditionally — the closure does not capture the `ShutdownFlag`. -/
def read_thumbnail_job (fs : FSModel) (alive : Bool) (p : FPath) (size : ℕ) :
    Option InternalFSEvent × List String :=
  let res := (fs.decode p).map (fun i => to_thumbnail i size)
  if alive then (some (InternalFSEvent.Op (OperationEvent.ThumbnailLoaded p res)), [])
  else (none, [errThumbnailSend])

/-- Effectful map over a list in `Option`, aborting at the first failure:
the shape of `iter().map(|p| p.canonicalize()).collect::<Result<_,_>>()`
and of the `?`-propagating loops in `src/filesystem.rs`. -/
def mapOpt (f : α → Option β) : List α → Option (List β)
  | [] => some []
  | a :: as =>
    match f a, mapOpt f as with
    | some b, some bs => some (b :: bs)
    | _, _ => none

/-- `FileSystem::drain_files_dirs` (`src/filesystem.rs` lines 296-307):
partition paths into regular files and directories, silently dropping
anything that is neither. -/
def drain_files_dirs (fs : FSModel) : List FPath → List FPath × List FPath
  | [] => ([], [])
  | p :: ps =>
    let r := drain_files_dirs fs ps
    if fs.isFile p then (p :: r.1, r.2)
    else if fs.isDir p then (r.1, p :: r.2)
    else r

/-- `FileSystem::collect_files` (`src/filesystem.rs` lines 309-320):
list a directory, canonicalize every entry (`?` aborts on failure), keep
the entries that are regular files recognized as images. -/
def collect_files (fs : FSModel) (dir : FPath) : Option (List FPath) :=
  match fs.readDir dir with
  | none => none
  | some entries =>
    match mapOpt fs.canonicalize entries with
    | none => none
    | some canon => some (canon.filter (fun p => fs.isFile p && fs.isImage p))

/-- The first phase of `FileSystem::selectRootAndFiles`
(`src/filesystem.rs` lines 329-344): canonicalize the inputs, partition
into files and directories, keep the explicit files recognized as images,
and extend with the collected files of every explicit directory.  Returns
the accumulated file list and the explicit directory list. -/
def initial_files_dirs (fs : FSModel) (paths : List FPath) :
    Option (List FPath × List FPath) :=
  match mapOpt fs.canonicalize paths with
  | none => none
  | some canon =>
    let fd := drain_files_dirs fs canon
    let files1 := fd.1.filter fs.isImage
    match mapOpt (collect_files fs) fd.2 with
    | none => none
    | some collected => some (files1 ++ collected.flatten, fd.2)

/-- The candidate-root set of `FileSystem::selectRootAndFiles`
(`src/filesystem.rs` lines 346-351): explicit directories united with the
parents of all resolved files.  The Rust `HashSet` is modelled as a
deduplicated list, so its cardinality is the list's length. -/
def candidate_roots (files dirs : List FPath) : List FPath :=
  (dirs ++ files.filterMap FPath.parent).dedup

/-- `FileSystem::selectRootAndFiles` (`src/filesystem.rs` lines
322-368): empty input yields no root and an empty set; otherwise the
first phase runs, the candidate-root set is built, and exactly when it
has one member that member is re-scanned (its files merged in) and
returned as the root.  The returned file set (the Rust `HashSet`) is the
deduplicated file list. -/
def selectRootAndFiles (fs : FSModel) (paths : List FPath) :
    Option (Option FPath × List FPath) :=
  if paths = [] then some (none, [])
  else
    match initial_files_dirs fs paths with
    | none => none
    | some fd =>
      let dirSet := candidate_roots fd.1 fd.2
      if dirSet.length = 1 then
        match mapOpt (collect_files fs) dirSet with
        | none => none
        | some more => some (dirSet.head?, (fd.1 ++ more.flatten).dedup)
      else some (none, fd.1.dedup)

/-- The seeding loop of `FileSystem::start` (`src/filesystem.rs` lines
179-183): one `Added` event per discovered file is sent directly on the
output channel; the loop contains no `notifier()` call, so the returned
hook count is zero. -/
def startSeed (files : List FPath) : List FileSystemEvent × ℕ :=
  (files.map (fun p => FileSystemEvent.FileEvent (FileEvent.Added p)), 0)

/-- The observable construction-time state of a started service. -/
structure StartResult where
  root : Option FPath
  files : List FPath
  watchActive : Bool
  seeded : List FileSystemEvent
  seedHooks : ℕ
  shutdownFlag : Bool
deriving DecidableEq

/-- `FileSystem::start` (`src/filesystem.rs` lines 79-193) up to its
construction-time observables: path resolution runs first; a watch is
started exactly when a root was returned (a watch-setup failure is fatal);
the `ShutdownFlag` starts unset; the output channel is seeded with one
`Added` per discovered file. -/
def FileSystem.start (fs : FSModel) (paths : List FPath) : Option StartResult :=
  match selectRootAndFiles fs paths with
  | none => none
  | some rf =>
    if rf.1.isSome && !fs.watchSetupOk then none
    else
      some { root := rf.1, files := rf.2, watchActive := rf.1.isSome,
             seeded := (startSeed rf.2).1, seedHooks := (startSeed rf.2).2,
             shutdownFlag := false }

/-- `FileSystem::shutdown` (`src/filesystem.rs` lines 211-214): the only
write to the `ShutdownFlag`, setting it; nothing else changes. -/
def FileSystem.shutdown (r : StartResult) : StartResult :=
  { r with shutdownFlag := true }

/-- A concrete external-capability instance: one directory `d` holding two
recognized images `a.png`, `c.png` and one non-image `b.txt`; every decode
yields a 400x300 image; canonicalization is the identity. -/
def fsEx : FSModel where
  canonicalize := fun p => some p
  isFile := fun p =>
    decide (p = ["d", "a.png"] ∨ p = ["d", "c.png"] ∨ p = ["d", "b.txt"])
  isDir := fun p => decide (p = ["d"])
  readDir := fun p =>
    if p = ["d"] then some [["d", "a.png"], ["d", "c.png"], ["d", "b.txt"]] else none
  isImage := fun p => decide (p = ["d", "a.png"] ∨ p = ["d", "c.png"])
  decode := fun _ => Except.ok (400, 300)
  watchSetupOk := true

/-- The start result obtained on `fsEx` from the single input `d`. -/
def rEx : StartResult where
  root := some ["d"]
  files := [["d", "a.png"], ["d", "c.png"]]
  watchActive := true
  seeded := [FileSystemEvent.FileEvent (FileEvent.Added ["d", "a.png"]),
             FileSystemEvent.FileEvent (FileEvent.Added ["d", "c.png"])]
  seedHooks := 0
  shutdownFlag := false

/-- A concrete external-capability instance on which every open fails, as
for a nonexistent path. -/
def fsErr : FSModel where
  canonicalize := fun _ => none
  isFile := fun _ => false
  isDir := fun _ => false
  readDir := fun _ => none
  isImage := fun _ => false
  decode := fun _ => Except.error "No such file or directory"
  watchSetupOk := true

/-! Helper lemmas about the funnel, the bridge, and path resolution. -/

/-- The funnel's outputs and hook count do not depend on the flag value. -/
theorem funnelRun_flag_indep (isImg : FPath → Bool) (alive : Bool) (sd sd' : Bool) :
    ∀ ins : List RecvRes,
      (funnelRun isImg sd alive ins).outputs = (funnelRun isImg sd' alive ins).outputs ∧
      (funnelRun isImg sd alive ins).hooks = (funnelRun isImg sd' alive ins).hooks
  | [] => ⟨rfl, rfl⟩
  | RecvRes.empty :: rest => funnelRun_flag_indep isImg alive sd sd' rest
  | RecvRes.disconnected :: _ => by simp [funnelRun]
  | RecvRes.item e :: rest => by
    have ih := funnelRun_flag_indep isImg alive sd sd' rest
    cases h : processInternal isImg e with
    | none => simp [funnelRun, h, ih.1, ih.2]
    | some ev =>
      cases alive with
      | true => simp [funnelRun, h, ih.1, ih.2]
      | false => simp [funnelRun, h]

/-- With the flag set, the funnel emits no error log on any run. -/
theorem funnelRun_logs_shutdown (isImg : FPath → Bool) (alive : Bool) :
    ∀ ins : List RecvRes, (funnelRun isImg true alive ins).logs = []
  | [] => rfl
  | RecvRes.empty :: rest => funnelRun_logs_shutdown isImg alive rest
  | RecvRes.disconnected :: _ => by simp [funnelRun]
  | RecvRes.item e :: rest => by
    have ih := funnelRun_logs_shutdown isImg alive rest
    cases h : processInternal isImg e with
    | none => simp [funnelRun, h, ih]
    | some ev =>
      cases alive with
      | true => simp [funnelRun, h, ih]
      | false => simp [funnelRun, h]

/-- While the consumer is alive, the hook fires exactly once per drained
item, whether or not the item is classified into an output. -/
theorem funnelRun_hooks_items (isImg : FPath → Bool) (sd : Bool) :
    ∀ ins : List RecvRes, (funnelRun isImg sd true ins).hooks = itemsConsumed ins
  | [] => rfl
  | RecvRes.empty :: rest => by
    simp [funnelRun, itemsConsumed, funnelRun_hooks_items isImg sd rest]
  | RecvRes.disconnected :: _ => by simp [funnelRun, itemsConsumed]
  | RecvRes.item e :: rest => by
    have ih := funnelRun_hooks_items isImg sd rest
    cases h : processInternal isImg e with
    | none => simp [funnelRun, itemsConsumed, h, ih]
    | some ev => simp [funnelRun, itemsConsumed, h, ih]

/-- With the flag set, the watch bridge emits no error log on any run. -/
theorem watchBridge_logs_shutdown (alive : Bool) :
    ∀ rs : List (Option DebouncedEvent), (watchBridge true alive rs).2 = []
  | [] => rfl
  | none :: _ => by simp [watchBridge]
  | some e :: rest => by
    have ih := watchBridge_logs_shutdown alive rest
    cases alive with
    | true => simp [watchBridge, ih]
    | false => simp [watchBridge]

/-- The items the bridge forwards do not depend on the flag value. -/
theorem watchBridge_flag_indep (alive sd sd' : Bool) :
    ∀ rs : List (Option DebouncedEvent),
      (watchBridge sd alive rs).1 = (watchBridge sd' alive rs).1
  | [] => rfl
  | none :: _ => by simp [watchBridge]
  | some e :: rest => by
    have ih := watchBridge_flag_indep alive sd sd' rest
    cases alive with
    | true => simp [watchBridge, ih]
    | false => simp [watchBridge]

/-- Casting `⌊x⌋.toNat` back to `ℚ` recovers `⌊x⌋` for nonnegative `x`. -/
theorem floor_toNat_cast_q (x : ℚ) (hx : 0 ≤ x) : ((⌊x⌋.toNat : ℕ) : ℚ) = (⌊x⌋ : ℚ) := by
  exact_mod_cast Int.toNat_of_nonneg (Int.floor_nonneg.mpr hx)

/-- Every element produced by `mapOpt f` is the image under `f` of an
input element. -/
theorem mapOpt_mem {α β : Type} {f : α → Option β} :
    ∀ {as : List α} {bs : List β}, mapOpt f as = some bs →
      ∀ b ∈ bs, ∃ a ∈ as, f a = some b := by
  intro as
  induction as with
  | nil => intro bs h b hb; simp [mapOpt] at h; subst h; simp at hb
  | cons a as ih =>
    intro bs h b hb
    cases hfa : f a with
    | none => simp [mapOpt, hfa] at h
    | some b0 =>
      cases hrest : mapOpt f as with
      | none => simp [mapOpt, hfa, hrest] at h
      | some bs0 =>
        simp [mapOpt, hfa, hrest] at h
        subst h
        rcases List.mem_cons.mp hb with hb | hb
        · exact ⟨a, List.mem_cons_self a as, hb ▸ hfa⟩
        · obtain ⟨a', ha', hfa'⟩ := ih hrest b hb
          exact ⟨a', List.mem_cons_of_mem a ha', hfa'⟩

/-- Every path in the file component of `drain_files_dirs` came from the
input and is a regular file. -/
theorem drain_mem_files (fs : FSModel) :
    ∀ ps : List FPath, ∀ p ∈ (drain_files_dirs fs ps).1, p ∈ ps ∧ fs.isFile p = true := by
  intro ps
  induction ps with
  | nil => intro p hp; simp [drain_files_dirs] at hp
  | cons q ps ih =>
    intro p hp
    by_cases hf : fs.isFile q
    · simp [drain_files_dirs, hf] at hp
      rcases hp with rfl | hp
      · exact ⟨List.mem_cons_self _ _, hf⟩
      · obtain ⟨h1, h2⟩ := ih p hp; exact ⟨List.mem_cons_of_mem q h1, h2⟩
    · by_cases hd : fs.isDir q
      · simp [drain_files_dirs, hf, hd] at hp
        obtain ⟨h1, h2⟩ := ih p hp; exact ⟨List.mem_cons_of_mem q h1, h2⟩
      · simp [drain_files_dirs, hf, hd] at hp
        obtain ⟨h1, h2⟩ := ih p hp; exact ⟨List.mem_cons_of_mem q h1, h2⟩

/-- Every path in the directory component of `drain_files_dirs` came from
the input and is a directory. -/
theorem drain_mem_dirs (fs : FSModel) :
    ∀ ps : List FPath, ∀ p ∈ (drain_files_dirs fs ps).2, p ∈ ps ∧ fs.isDir p = true := by
  intro ps
  induction ps with
  | nil => intro p hp; simp [drain_files_dirs] at hp
  | cons q ps ih =>
    intro p hp
    by_cases hf : fs.isFile q
    · simp [drain_files_dirs, hf] at hp
      obtain ⟨h1, h2⟩ := ih p hp; exact ⟨List.mem_cons_of_mem q h1, h2⟩
    · by_cases hd : fs.isDir q
      · simp [drain_files_dirs, hf, hd] at hp
        rcases hp with rfl | hp
        · exact ⟨List.mem_cons_self _ _, hd⟩
        · obtain ⟨h1, h2⟩ := ih p hp; exact ⟨List.mem_cons_of_mem q h1, h2⟩
      · simp [drain_files_dirs, hf, hd] at hp
        obtain ⟨h1, h2⟩ := ih p hp; exact ⟨List.mem_cons_of_mem q h1, h2⟩

/-- Every path returned by `collect_files` is a canonical regular file
recognized as an image. -/
theorem collect_files_mem {fs : FSModel} {d : FPath} {l : List FPath}
    (h : collect_files fs d = some l) :
    ∀ p ∈ l, fs.isFile p = true ∧ fs.isImage p = true ∧
      ∃ q, fs.canonicalize q = some p := by
  intro p hp
  cases hrd : fs.readDir d with
  | none => simp [collect_files, hrd] at h
  | some entries =>
    cases hmc : mapOpt fs.canonicalize entries with
    | none => simp [collect_files, hrd, hmc] at h
    | some canon =>
      simp [collect_files, hrd, hmc] at h
      subst h
      rw [List.mem_filter] at hp
      obtain ⟨hpc, hfi⟩ := hp
      rw [Bool.and_eq_true] at hfi
      obtain ⟨q, _, hq⟩ := mapOpt_mem hmc p hpc
      exact ⟨hfi.1, hfi.2, q, hq⟩

/-- Every path in the first phase's file list is a canonical regular file
recognized as an image. -/
theorem initial_files_mem {fs : FSModel} {paths f2 dirs : List FPath}
    (h : initial_files_dirs fs paths = some (f2, dirs)) :
    ∀ p ∈ f2, fs.isFile p = true ∧ fs.isImage p = true ∧
      ∃ q, fs.canonicalize q = some p := by
  intro p hp
  cases hmc : mapOpt fs.canonicalize paths with
  | none => simp [initial_files_dirs, hmc] at h
  | some canon =>
    cases hcol : mapOpt (collect_files fs) (drain_files_dirs fs canon).2 with
    | none => simp [initial_files_dirs, hmc, hcol] at h
    | some collected =>
      simp [initial_files_dirs, hmc, hcol] at h
      obtain ⟨hf2, hdirs⟩ := h
      rw [← hf2] at hp
      rcases List.mem_append.mp hp with hp | hp
      · rw [List.mem_filter] at hp
        obtain ⟨hpd, himg⟩ := hp
        obtain ⟨hpc, hfile⟩ := drain_mem_files fs canon p hpd
        obtain ⟨q, _, hq⟩ := mapOpt_mem hmc p hpc
        exact ⟨hfile, himg, q, hq⟩
      · rw [List.mem_flatten] at hp
        obtain ⟨l, hl, hpl⟩ := hp
        obtain ⟨d, _, hd⟩ := mapOpt_mem hcol l hl
        exact collect_files_mem hd p hpl

/-- Every path in the resolved file set is a canonical regular file
recognized as an image. -/
theorem select_mem {fs : FSModel} {paths : List FPath} {root : Option FPath}
    {files : List FPath} (h : selectRootAndFiles fs paths = some (root, files)) :
    ∀ p ∈ files, fs.isFile p = true ∧ fs.isImage p = true ∧
      ∃ q, fs.canonicalize q = some p := by
  intro p hp
  by_cases hnil : paths = []
  · simp [selectRootAndFiles, hnil] at h
    rw [h.2] at hp
    simp at hp
  · cases hi : initial_files_dirs fs paths with
    | none => simp [selectRootAndFiles, hnil, hi] at h
    | some fd =>
      by_cases hcard : (candidate_roots fd.1 fd.2).length = 1
      · cases hmore : mapOpt (collect_files fs) (candidate_roots fd.1 fd.2) with
        | none => simp [selectRootAndFiles, hnil, hi, hcard, hmore] at h
        | some more =>
          simp [selectRootAndFiles, hnil, hi, hcard, hmore] at h
          rw [← h.2, List.mem_dedup] at hp
          rcases List.mem_append.mp hp with hp | hp
          · exact initial_files_mem (hi.trans (by rw [Prod.mk.eta])) p hp
          · rw [List.mem_flatten] at hp
            obtain ⟨l, hl, hpl⟩ := hp
            obtain ⟨d, _, hd⟩ := mapOpt_mem hmore l hl
            exact collect_files_mem hd p hpl
      · simp [selectRootAndFiles, hnil, hi, hcard] at h
        rw [← h.2, List.mem_dedup] at hp
        exact initial_files_mem (hi.trans (by rw [Prod.mk.eta])) p hp

/-- The resolved file set carries no duplicates. -/
theorem select_files_nodup {fs : FSModel} {paths : List FPath} {root : Option FPath}
    {files : List FPath} (h : selectRootAndFiles fs paths = some (root, files)) :
    files.Nodup := by
  by_cases hnil : paths = []
  · simp [selectRootAndFiles, hnil] at h
    rw [h.2]
    exact List.nodup_nil
  · cases hi : initial_files_dirs fs paths with
    | none => simp [selectRootAndFiles, hnil, hi] at h
    | some fd =>
      by_cases hcard : (candidate_roots fd.1 fd.2).length = 1
      · cases hmore : mapOpt (collect_files fs) (candidate_roots fd.1 fd.2) with
        | none => simp [selectRootAndFiles, hnil, hi, hcard, hmore] at h
        | some more =>
          simp [selectRootAndFiles, hnil, hi, hcard, hmore] at h
          rw [← h.2]
          exact List.nodup_dedup _
      · simp [selectRootAndFiles, hnil, hi, hcard] at h
        rw [← h.2]
        exact List.nodup_dedup _

/-- The structural content of `selectRootAndFiles` on nonempty input:
the first phase succeeds, a root is returned exactly when the candidate
set is a singleton, in which case the singleton is re-scanned and merged,
and the file set carries no duplicates. -/
theorem selectRootIff {fs : FSModel} {paths : List FPath} {root : Option FPath}
    {files : List FPath} (hne : paths ≠ [])
    (h : selectRootAndFiles fs paths = some (root, files)) :
    ∃ fd, initial_files_dirs fs paths = some fd
      ∧ (root.isSome ↔ (candidate_roots fd.1 fd.2).length = 1)
      ∧ (∀ d, candidate_roots fd.1 fd.2 = [d] →
           root = some d ∧ ∃ extra, collect_files fs d = some extra ∧
             files = (fd.1 ++ extra).dedup)
      ∧ files.Nodup := by
  cases hi : initial_files_dirs fs paths with
  | none => simp [selectRootAndFiles, hne, hi] at h
  | some fd =>
    refine ⟨fd, rfl, ?_⟩
    by_cases hcard : (candidate_roots fd.1 fd.2).length = 1
    · cases hmore : mapOpt (collect_files fs) (candidate_roots fd.1 fd.2) with
      | none => simp [selectRootAndFiles, hne, hi, hcard, hmore] at h
      | some more =>
        simp [selectRootAndFiles, hne, hi, hcard, hmore] at h
        obtain ⟨d, hd⟩ := List.length_eq_one.mp hcard
        refine ⟨?_, ?_, ?_⟩
        · rw [← h.1, hd]; simp [hcard]
        · intro d' hd'
          rw [hd'] at hmore
          cases hcf : collect_files fs d' with
          | none => simp [mapOpt, hcf] at hmore
          | some extra =>
            simp [mapOpt, hcf] at hmore
            constructor
            · rw [← h.1, hd']; simp
            · exact ⟨extra, rfl, by rw [← h.2, ← hmore]; simp⟩
        · rw [← h.2]; exact List.nodup_dedup _
    · simp [selectRootAndFiles, hne, hi, hcard] at h
      refine ⟨?_, ?_, ?_⟩
      · rw [← h.1]; simp [hcard]
      · intro d hd; exact absurd (by rw [hd]; rfl) hcard
      · rw [← h.2]; exact List.nodup_dedup _

/-! Claim theorems. -/

/-- C1 (counterexample): on a drained `Chmod` item — dropped by
classification, so never forwarded as an `OutputEvent` — the funnel still
invokes the repaint hook once: the hook does not fire "only on a
successful forward". -/
theorem hook_without_forward_cex :
    (funnelRun (fun _ => false) false true
      [RecvRes.item (InternalFSEvent.Notify (DebouncedEvent.Chmod ["x"]))]).outputs = []
    ∧ (funnelRun (fun _ => false) false true
      [RecvRes.item (InternalFSEvent.Notify (DebouncedEvent.Chmod ["x"]))]).hooks = 1 :=
  ⟨rfl, rfl⟩

/-- C1 (amended): the hook is invoked exactly once per item the funnel
drains, regardless of whether the item is classified into an
`OutputEvent` and regardless of whether the forward succeeds (on a failed
forward the hook still fires once before the loop exits); the seeding
loop sends its `Added` events with no hook invocation at all. -/
theorem hook_per_drained_item (isImg : FPath → Bool) (sd : Bool) (ins rest : List RecvRes)
    (op : OperationEvent) (files : List FPath) :
    (funnelRun isImg sd true ins).hooks = itemsConsumed ins
    ∧ funnelRun isImg sd false (RecvRes.item (InternalFSEvent.Op op) :: rest) = ⟨[], 1, []⟩
    ∧ (startSeed files).2 = 0
    ∧ (startSeed files).1.length = files.length :=
  ⟨funnelRun_hooks_items isImg sd ins, rfl, rfl, List.length_map _ _⟩

/-- C2 (counterexample): a full-image worker whose send fails because the
funnel side is gone logs an error unconditionally — the spawned closure
does not capture the `ShutdownFlag`, so no flag check guards this
error-level log (`src/filesystem.rs` line 206), and likewise for the
thumbnail worker (line 239). -/
theorem worker_send_log_unguarded_cex :
    (read_file_job fsErr false ["img.png"]).2 = [errImageSend]
    ∧ (read_thumbnail_job fsErr false ["img.png"] 150).2 = [errThumbnailSend]
    ∧ [errImageSend] ≠ ([] : List String) :=
  ⟨rfl, rfl, by simp⟩

/-- C2 (amended): after shutdown the watch-bridge and funnel threads emit
no error-level log on channel closure (their logs are guarded by the
flag), but the thumbnail and image worker jobs log their send failure
unconditionally, whatever the flag value. -/
theorem shutdown_log_guard_spec (isImg : FPath → Bool) (alive : Bool)
    (ins : List RecvRes) (rs : List (Option DebouncedEvent))
    (fs : FSModel) (p : FPath) (s : ℕ) :
    (funnelRun isImg true alive ins).logs = []
    ∧ (watchBridge true alive rs).2 = []
    ∧ (read_file_job fs false p).2 = [errImageSend]
    ∧ (read_thumbnail_job fs false p s).2 = [errThumbnailSend] :=
  ⟨funnelRun_logs_shutdown isImg alive ins, watchBridge_logs_shutdown alive rs, rfl, rfl⟩

/-- C3: classification of raw watch events is exactly the spec's table —
`Create`/`Write` yield `Added`/`Modified` when recognized as an image and
are dropped otherwise, `Remove` and `Rename` pass unconditionally (one
`Renamed`, never a `Removed` followed by an `Added`), every other raw
kind is dropped, and a non-dropped event produces exactly one output
item. -/
theorem classification_table_spec (isImg : FPath → Bool) (sd : Bool)
    (p o n : FPath) (q : Option FPath) :
    classify isImg (DebouncedEvent.Create p)
      = (if isImg p then some (FileEvent.Added p) else none)
    ∧ classify isImg (DebouncedEvent.Write p)
      = (if isImg p then some (FileEvent.Modified p) else none)
    ∧ classify isImg (DebouncedEvent.Remove p) = some (FileEvent.Removed p)
    ∧ classify isImg (DebouncedEvent.Rename o n) = some (FileEvent.Renamed o n)
    ∧ classify isImg (DebouncedEvent.NoticeWrite p) = none
    ∧ classify isImg (DebouncedEvent.NoticeRemove p) = none
    ∧ classify isImg (DebouncedEvent.Chmod p) = none
    ∧ classify isImg DebouncedEvent.Rescan = none
    ∧ classify isImg (DebouncedEvent.Error q) = none
    ∧ (funnelRun isImg sd true
        [RecvRes.item (InternalFSEvent.Notify (DebouncedEvent.Rename o n))]).outputs
      = [FileSystemEvent.FileEvent (FileEvent.Renamed o n)]
    ∧ (∀ e, (funnelRun isImg sd true [RecvRes.item (InternalFSEvent.Notify e)]).outputs
        = ((classify isImg e).map FileSystemEvent.FileEvent).toList) := by
  refine ⟨rfl, rfl, rfl, rfl, rfl, rfl, rfl, rfl, rfl, rfl, ?_⟩
  intro e
  cases h : classify isImg e with
  | none => simp [funnelRun, processInternal, h]
  | some ev => simp [funnelRun, processInternal, h]

/-- C7: when decoding a path fails, the spawned `read_file` job posts
exactly one `ImageLoaded` item carrying the error (no exception crosses
the concurrency boundary and nothing is logged), and the funnel forwards
it as one `OutputEvent` and then keeps processing the remaining input
unchanged — the failure aborts nothing and blocks no later submission. -/
theorem read_file_error_isolation (fs : FSModel) (sd : Bool) (p : FPath)
    (e : String) (rest : List RecvRes) (hdec : fs.decode p = Except.error e) :
    read_file_job fs true p
      = (some (InternalFSEvent.Op (OperationEvent.ImageLoaded p (Except.error e))), [])
    ∧ funnelRun fs.isImage sd true
        (RecvRes.item (InternalFSEvent.Op (OperationEvent.ImageLoaded p (Except.error e))) :: rest)
      = ⟨FileSystemEvent.OperationEvent (OperationEvent.ImageLoaded p (Except.error e))
            :: (funnelRun fs.isImage sd true rest).outputs,
         (funnelRun fs.isImage sd true rest).hooks + 1,
         (funnelRun fs.isImage sd true rest).logs⟩ := by
  constructor
  · simp [read_file_job, hdec]
  · rfl

/-- C7 (witness): on a model where every open fails, `read_file` of a
missing path yields exactly one error-carrying `ImageLoaded` output event
and the funnel run ends cleanly. -/
theorem read_file_error_isolation_witness :
    fsErr.decode ["missing.png"] = Except.error "No such file or directory"
    ∧ read_file_job fsErr true ["missing.png"]
      = (some (InternalFSEvent.Op (OperationEvent.ImageLoaded ["missing.png"]
          (Except.error "No such file or directory"))), [])
    ∧ funnelRun fsErr.isImage false true
        [RecvRes.item (InternalFSEvent.Op (OperationEvent.ImageLoaded ["missing.png"]
          (Except.error "No such file or directory")))]
      = ⟨[FileSystemEvent.OperationEvent (OperationEvent.ImageLoaded ["missing.png"]
          (Except.error "No such file or directory"))], 1, []⟩ := by
  have h := read_file_error_isolation fsErr false ["missing.png"]
    "No such file or directory" [] rfl
  exact ⟨rfl, h.1, h.2⟩

/-- C8: the `ShutdownFlag` never changes the delivered events — for any
two flag values the funnel's outputs and hook count and the bridge's
forwarded items coincide — and `shutdown()` only sets the flag, leaving
the root, file set, watch state and seeded events untouched. -/
theorem shutdown_flag_noninterference_spec (isImg : FPath → Bool) (alive sd sd' : Bool)
    (ins : List RecvRes) (rs : List (Option DebouncedEvent)) (r : StartResult) :
    (funnelRun isImg sd alive ins).outputs = (funnelRun isImg sd' alive ins).outputs
    ∧ (funnelRun isImg sd alive ins).hooks = (funnelRun isImg sd' alive ins).hooks
    ∧ (watchBridge sd alive rs).1 = (watchBridge sd' alive rs).1
    ∧ (FileSystem.shutdown r).shutdownFlag = true
    ∧ (FileSystem.shutdown r).root = r.root
    ∧ (FileSystem.shutdown r).files = r.files
    ∧ (FileSystem.shutdown r).watchActive = r.watchActive
    ∧ (FileSystem.shutdown r).seeded = r.seeded :=
  ⟨(funnelRun_flag_indep isImg alive sd sd' ins).1,
   (funnelRun_flag_indep isImg alive sd sd' ins).2,
   watchBridge_flag_indep alive sd sd' rs, rfl, rfl, rfl, rfl, rfl⟩

/-- C10: the floored thumbnail dimensions can be zero — on a 1x200 source
with target size 100 the scale is 1/2, the scaled width floors to 0, and
the requested thumbnail is 0x100 although both source dimensions are
nonzero. -/
theorem thumbnail_zero_dimension :
    (0 < 1 ∧ 0 < 200) ∧ to_thumbnail (1, 200) 100 = (0, 100)
      ∧ (to_thumbnail (1, 200) 100).1 = 0 := by
  refine ⟨⟨Nat.one_pos, by norm_num⟩, ?_, ?_⟩
  · norm_num [to_thumbnail, min_def]
    exact rfl
  · norm_num [to_thumbnail, min_def]

/-- C6: for a positive-dimension source the thumbnail computation scales
both dimensions by `min(size/w, size/h)` and floors them, so each output
dimension lies within one pixel below its exact aspect-preserving value. -/
theorem thumbnail_scale_spec (w h s : ℕ) (hw : 0 < w) (hh : 0 < h) :
    to_thumbnail (w, h) s
      = ((⌊(w : ℚ) * min ((s : ℚ) / (w : ℚ)) ((s : ℚ) / (h : ℚ))⌋).toNat,
         (⌊(h : ℚ) * min ((s : ℚ) / (w : ℚ)) ((s : ℚ) / (h : ℚ))⌋).toNat)
    ∧ (w : ℚ) * min ((s : ℚ) / (w : ℚ)) ((s : ℚ) / (h : ℚ)) - 1
        < ((to_thumbnail (w, h) s).1 : ℚ)
    ∧ ((to_thumbnail (w, h) s).1 : ℚ)
        ≤ (w : ℚ) * min ((s : ℚ) / (w : ℚ)) ((s : ℚ) / (h : ℚ))
    ∧ (h : ℚ) * min ((s : ℚ) / (w : ℚ)) ((s : ℚ) / (h : ℚ)) - 1
        < ((to_thumbnail (w, h) s).2 : ℚ)
    ∧ ((to_thumbnail (w, h) s).2 : ℚ)
        ≤ (h : ℚ) * min ((s : ℚ) / (w : ℚ)) ((s : ℚ) / (h : ℚ)) := by
  have hxw : (0 : ℚ) ≤ (w : ℚ) * min ((s : ℚ) / (w : ℚ)) ((s : ℚ) / (h : ℚ)) := by positivity
  have hxh : (0 : ℚ) ≤ (h : ℚ) * min ((s : ℚ) / (w : ℚ)) ((s : ℚ) / (h : ℚ)) := by positivity
  refine ⟨rfl, ?_, ?_, ?_, ?_⟩
  · rw [show ((to_thumbnail (w, h) s).1 : ℚ)
        = ((⌊(w : ℚ) * min ((s : ℚ) / (w : ℚ)) ((s : ℚ) / (h : ℚ))⌋).toNat : ℚ) from rfl]
    rw [floor_toNat_cast_q _ hxw]
    have := Int.sub_one_lt_floor ((w : ℚ) * min ((s : ℚ) / (w : ℚ)) ((s : ℚ) / (h : ℚ)))
    linarith
  · rw [show ((to_thumbnail (w, h) s).1 : ℚ)
        = ((⌊(w : ℚ) * min ((s : ℚ) / (w : ℚ)) ((s : ℚ) / (h : ℚ))⌋).toNat : ℚ) from rfl]
    rw [floor_toNat_cast_q _ hxw]
    exact Int.floor_le _
  · rw [show ((to_thumbnail (w, h) s).2 : ℚ)
        = ((⌊(h : ℚ) * min ((s : ℚ) / (w : ℚ)) ((s : ℚ) / (h : ℚ))⌋).toNat : ℚ) from rfl]
    rw [floor_toNat_cast_q _ hxh]
    have := Int.sub_one_lt_floor ((h : ℚ) * min ((s : ℚ) / (w : ℚ)) ((s : ℚ) / (h : ℚ)))
    linarith
  · rw [show ((to_thumbnail (w, h) s).2 : ℚ)
        = ((⌊(h : ℚ) * min ((s : ℚ) / (w : ℚ)) ((s : ℚ) / (h : ℚ))⌋).toNat : ℚ) from rfl]
    rw [floor_toNat_cast_q _ hxh]
    exact Int.floor_le _

/-- C6 (witness): on a 400x300 source with target 150 the scale is 3/8,
the requested thumbnail is 150x112, its larger dimension is 150, and the
thumbnail job posts exactly that result. -/
theorem thumbnail_scale_spec_witness :
    0 < 400 ∧ 0 < 300
    ∧ ((400 : ℚ) * min ((150 : ℚ) / (400 : ℚ)) ((150 : ℚ) / (300 : ℚ)) - 1
        < ((to_thumbnail (400, 300) 150).1 : ℚ))
    ∧ to_thumbnail (400, 300) 150 = (150, 112)
    ∧ max (to_thumbnail (400, 300) 150).1 (to_thumbnail (400, 300) 150).2 = 150
    ∧ read_thumbnail_job fsEx true ["d", "a.png"] 150
      = (some (InternalFSEvent.Op (OperationEvent.ThumbnailLoaded ["d", "a.png"]
          (Except.ok (to_thumbnail (400, 300) 150)))), []) := by
  have heq : to_thumbnail (400, 300) 150 = (150, 112) := by
    norm_num [to_thumbnail, min_def]
    exact ⟨rfl, rfl⟩
  refine ⟨by norm_num, by norm_num,
    (thumbnail_scale_spec 400 300 150 (by norm_num) (by norm_num)).2.1,
    heq, by rw [heq]; rfl, rfl⟩

/-- C4: path resolution returns no root and no files on empty input; on
nonempty input a root is returned exactly when the candidate-root set
(explicit directories united with the parents of resolved files) is a
singleton, in which case that directory is re-scanned and its files
merged in; the returned file set is deduplicated; and a started service
has an active watch exactly when a root was returned. -/
theorem path_resolution_spec (fs : FSModel) (paths : List FPath) (root : Option FPath)
    (files : List FPath) (r : StartResult) (hne : paths ≠ [])
    (hsel : selectRootAndFiles fs paths = some (root, files))
    (hstart : FileSystem.start fs paths = some r) :
    selectRootAndFiles fs [] = some (none, [])
    ∧ (∃ fd, initial_files_dirs fs paths = some fd
        ∧ (root.isSome ↔ (candidate_roots fd.1 fd.2).length = 1)
        ∧ (∀ d, candidate_roots fd.1 fd.2 = [d] →
             root = some d ∧ ∃ extra, collect_files fs d = some extra ∧
               files = (fd.1 ++ extra).dedup)
        ∧ files.Nodup)
    ∧ (r.watchActive ↔ r.root.isSome) := by
  refine ⟨by simp [selectRootAndFiles], selectRootIff hne hsel, ?_⟩
  by_cases hb : (root.isSome && !fs.watchSetupOk) = true
  · simp [FileSystem.start, hsel, hb] at hstart
  · simp [FileSystem.start, hsel, hb] at hstart
    rw [← hstart]

/-- C4 (witness): on the concrete model `fsEx` with input `d`, resolution
returns root `d` with the two image files, and the started service's
watch is active. -/
theorem path_resolution_spec_witness :
    selectRootAndFiles fsEx [] = some (none, [])
    ∧ (∃ fd, initial_files_dirs fsEx [["d"]] = some fd
        ∧ ((some ["d"] : Option FPath).isSome ↔ (candidate_roots fd.1 fd.2).length = 1)
        ∧ (∀ d, candidate_roots fd.1 fd.2 = [d] →
             (some ["d"] : Option FPath) = some d ∧
               ∃ extra, collect_files fsEx d = some extra ∧
                 ([["d", "a.png"], ["d", "c.png"]] : List FPath) = (fd.1 ++ extra).dedup)
        ∧ ([["d", "a.png"], ["d", "c.png"]] : List FPath).Nodup)
    ∧ (rEx.watchActive ↔ rEx.root.isSome) :=
  path_resolution_spec fsEx [["d"]] (some ["d"]) [["d", "a.png"], ["d", "c.png"]] rEx
    (by simp) (by decide) (by decide)

/-- C5: every successfully started service seeds the output channel with
exactly one `Added` event per discovered file — the same shape as live
updates — over pairwise-distinct paths, each of which is a canonical
regular file recognized as an image, so no non-image path is ever
seeded. -/
theorem start_seeding_spec (fs : FSModel) (paths : List FPath) (r : StartResult)
    (h : FileSystem.start fs paths = some r) :
    r.seeded = r.files.map (fun p => FileSystemEvent.FileEvent (FileEvent.Added p))
    ∧ r.seeded.length = r.files.length
    ∧ r.files.Nodup
    ∧ ∀ p, FileSystemEvent.FileEvent (FileEvent.Added p) ∈ r.seeded →
        fs.isImage p = true ∧ fs.isFile p = true ∧ ∃ q, fs.canonicalize q = some p := by
  cases hs : selectRootAndFiles fs paths with
  | none => simp [FileSystem.start, hs] at h
  | some rf =>
    by_cases hb : (rf.1.isSome && !fs.watchSetupOk) = true
    · simp [FileSystem.start, hs, hb] at h
    · simp [FileSystem.start, hs, hb] at h
      rw [← h]
      refine ⟨rfl, List.length_map _ _, ?_, ?_⟩
      · exact select_files_nodup (hs.trans (by rw [Prod.mk.eta]))
      · intro p hp
        obtain ⟨q, hq, heq⟩ := List.mem_map.mp hp
        have hqp : q = p := by
          injection heq with h1
          injection h1 with h2
        rw [hqp] at hq
        have hm := select_mem (hs.trans (by rw [Prod.mk.eta])) p hq
        exact ⟨hm.2.1, hm.1, hm.2.2⟩

/-- C5 (witness): on `fsEx` (two recognized images `a.png`, `c.png` and
one non-image `b.txt` in directory `d`) the service seeds exactly two
`Added` events, one per image, and never seeds the non-image path. -/
theorem start_seeding_spec_witness :
    FileSystem.start fsEx [["d"]] = some rEx
    ∧ rEx.seeded = [FileSystemEvent.FileEvent (FileEvent.Added ["d", "a.png"]),
                    FileSystemEvent.FileEvent (FileEvent.Added ["d", "c.png"])]
    ∧ rEx.seeded.length = 2
    ∧ rEx.files.Nodup
    ∧ fsEx.isImage ["d", "b.txt"] = false
    ∧ FileSystemEvent.FileEvent (FileEvent.Added ["d", "b.txt"]) ∉ rEx.seeded := by
  have hstart : FileSystem.start fsEx [["d"]] = some rEx := by decide
  have h := start_seeding_spec fsEx [["d"]] rEx hstart
  exact ⟨hstart, by decide, by decide, h.2.2.1, by decide, by decide⟩

/-- C9: a path that is neither a regular file nor a directory is silently
excluded — `drain_files_dirs` puts it in neither component, and it never
appears in a resolved file set. -/
theorem special_path_excluded_spec (fs : FSModel) (p : FPath)
    (hf : fs.isFile p = false) (hd : fs.isDir p = false) :
    (∀ ps, p ∉ (drain_files_dirs fs ps).1 ∧ p ∉ (drain_files_dirs fs ps).2)
    ∧ (∀ paths root files, selectRootAndFiles fs paths = some (root, files) →
        p ∉ files) := by
  constructor
  · intro ps
    constructor
    · intro hp
      have := (drain_mem_files fs ps p hp).2
      rw [hf] at this
      exact Bool.noConfusion this
    · intro hp
      have := (drain_mem_dirs fs ps p hp).2
      rw [hd] at this
      exact Bool.noConfusion this
  · intro paths root files h hp
    have := (select_mem h p hp).1
    rw [hf] at this
    exact Bool.noConfusion this

/-- C9 (witness): on `fsEx` the path `fifo` is neither file nor directory
and lands in neither component of the partition. -/
theorem special_path_excluded_spec_witness :
    fsEx.isFile ["fifo"] = false ∧ fsEx.isDir ["fifo"] = false
    ∧ ["fifo"] ∉ (drain_files_dirs fsEx [["fifo"], ["d"]]).1
    ∧ ["fifo"] ∉ (drain_files_dirs fsEx [["fifo"], ["d"]]).2 := by
  have h := special_path_excluded_spec fsEx ["fifo"] (by decide) (by decide)
  exact ⟨by decide, by decide, (h.1 [["fifo"], ["d"]]).1, (h.1 [["fifo"], ["d"]]).2⟩
